import Mathlib

/-!
Verification of the strike-accounting and removal-decision subsystem of
go-decluttarr: the persistent per-item strike ledger (`strikes.Handler`),
the cycle orchestrator (`jobs.Manager.RunAll`), the removal-policy
resolver (`Manager.GetRemovalAction`), and the per-item handling steps of
the slow-download, failed-imports and orphans detection jobs.

Times are modelled as integer nanoseconds since the epoch (Go `time.Time`
wall-clock reading); Go `int` counters are modelled as `Int` where they
can be compared against configuration values and as `Nat` where they only
ever count up from zero.
-/

namespace Decluttarr

/-- One strike record, as in `strikes.StrikeRecord`: `Count int`,
`FirstSeen`/`LastSeen time.Time` (here: nanoseconds), `Job`, `Name`. -/
structure StrikeRecord where
  count : Int
  firstSeen : Int
  lastSeen : Int
  job : String
  name : String
deriving DecidableEq

/-- The keyed record collection backing `Handler.strikes`
(`map[string]*StrikeRecord`). -/
def Smap : Type := String → Option StrikeRecord

/-- The empty map, as allocated by `NewHandler` / `Clear`. -/
def emptySmap : Smap := fun _ => none

/-- In-memory state of a `strikes.Handler`: the record map plus the two
ephemeral per-cycle counters `strikesAdded` and `strikesReset`. -/
structure LedgerState where
  strikes : Smap
  strikesAdded : Nat
  strikesReset : Nat

/-- The state of a freshly allocated handler before any load. -/
def freshLedger : LedgerState := ⟨emptySmap, 0, 0⟩

/-- `Handler.Add`: increments or creates the record for `downloadID`.
On an existing record: `Count++`, `LastSeen = now`, `Job` overwritten,
`Name` overwritten only when the given name is non-empty. On a missing
record: a new record with `Count 1` and both timestamps `now` is stored.
Always bumps `strikesAdded`. -/
def LedgerState.add (st : LedgerState) (downloadID job name : String)
    (now : Int) : LedgerState :=
  match st.strikes downloadID with
  | some record =>
    { st with
      strikes := fun k =>
        if k = downloadID then
          some { record with
                 count := record.count + 1
                 lastSeen := now
                 job := job
                 name := if name ≠ "" then name else record.name }
        else st.strikes k
      strikesAdded := st.strikesAdded + 1 }
  | none =>
    { st with
      strikes := fun k =>
        if k = downloadID then
          some { count := 1, firstSeen := now, lastSeen := now,
                 job := job, name := name }
        else st.strikes k
      strikesAdded := st.strikesAdded + 1 }

/-- `Handler.Get`: the current count, `0` when no record exists. -/
def LedgerState.get (st : LedgerState) (downloadID : String) : Int :=
  match st.strikes downloadID with
  | some record => record.count
  | none => 0

/-- `Handler.Reset`: deletes the record when present, bumping
`strikesReset` only in that case; a no-op on unknown ids. -/
def LedgerState.reset (st : LedgerState) (downloadID : String) : LedgerState :=
  match st.strikes downloadID with
  | some _ =>
    { st with
      strikes := fun k => if k = downloadID then none else st.strikes k
      strikesReset := st.strikesReset + 1 }
  | none => st

/-- `Handler.Clear`: replaces the map by a fresh empty one; the per-cycle
counters are left untouched. -/
def LedgerState.clear (st : LedgerState) : LedgerState :=
  { st with strikes := emptySmap }

/-- `Handler.HasExceeded`: `h.Get(downloadID) >= maxStrikes`. -/
def LedgerState.hasExceeded (st : LedgerState) (downloadID : String)
    (maxStrikes : Int) : Bool :=
  decide (maxStrikes ≤ st.get downloadID)

/-- `Handler.Cleanup`: with `cutoff := now - maxAge`, deletes every
record whose `LastSeen` is before the cutoff, independent of its count. -/
def LedgerState.cleanup (st : LedgerState) (now maxAge : Int) : LedgerState :=
  { st with
    strikes := fun k =>
      match st.strikes k with
      | some record =>
        if record.lastSeen < now - maxAge then none else some record
      | none => none }

/-- `Handler.ResetCycleCounters`: zeroes both per-cycle counters (the
previous values are returned to the caller; see
`LedgerState.cycleCounterValues`). -/
def LedgerState.resetCycleCounters (st : LedgerState) : LedgerState :=
  { st with strikesAdded := 0, strikesReset := 0 }

/-- The pair returned by `Handler.ResetCycleCounters`. -/
def LedgerState.cycleCounterValues (st : LedgerState) : Nat × Nat :=
  (st.strikesAdded, st.strikesReset)

/-! ## Persistence

`Handler.Save` serializes the record map to JSON (`json.MarshalIndent` of
`map[string]*StrikeRecord`) and atomically replaces the target file;
`Handler.Load` reads it back with `json.Unmarshal`. The JSON schema is
`count`, `first_seen`, `last_seen`, `job`, `name,omitempty`; Go encodes
`time.Time` in RFC 3339 with nanosecond precision, so a wall-clock
nanosecond reading round-trips exactly, and an empty `name` is omitted on
write and decoded back to the empty string. That standard-library
contract is captured by `marshalRecord`/`unmarshalRecord` below. -/

/-- The on-disk shape of one record under the JSON schema
(`count`, `first_seen`, `last_seen`, `job`, `name,omitempty`). -/
structure PersistedRecord where
  count : Int
  first_seen : Int
  last_seen : Int
  job : String
  name : String
deriving DecidableEq

/-- JSON encoding of one `StrikeRecord` (timestamps keep their full
nanosecond reading under RFC 3339 nanosecond encoding). -/
def marshalRecord (r : StrikeRecord) : PersistedRecord :=
  ⟨r.count, r.firstSeen, r.lastSeen, r.job, r.name⟩

/-- JSON decoding of one persisted record. -/
def unmarshalRecord (p : PersistedRecord) : StrikeRecord :=
  ⟨p.count, p.first_seen, p.last_seen, p.job, p.name⟩

/-- The persistence target as `Load` can find it: missing, unparseable,
or a parseable snapshot. -/
inductive Disk where
  | absent : Disk
  | corrupt : Disk
  | good : (String → Option PersistedRecord) → Disk

/-- `Handler.Save` once the write goes through: with no configured path
the call is a no-op and the target is untouched; otherwise the target
is atomically replaced by the serialized snapshot of the map. -/
def saveDisk (persistPath : String) (st : LedgerState) (d : Disk) : Disk :=
  if persistPath = "" then d
  else Disk.good (fun k => (st.strikes k).map marshalRecord)

/-- The record map `Handler.Load` leaves in memory, starting from the
empty map of a fresh handler: a missing target loads nothing (by design,
not an error); an unparseable target makes `json.Unmarshal` fail before
writing anything, so the map stays empty; a parseable snapshot is decoded
wholesale. -/
def loadInto (d : Disk) : Smap :=
  match d with
  | Disk.absent => emptySmap
  | Disk.corrupt => emptySmap
  | Disk.good m => fun k => (m k).map unmarshalRecord

/-- The error value returned by `Handler.Load`: `nil` for a missing
target (explicitly not an error) or a parseable one; an unmarshal error
for an unparseable target. -/
def loadErr (d : Disk) : Option String :=
  match d with
  | Disk.absent => none
  | Disk.corrupt => some "unmarshal strikes"
  | Disk.good _ => none

/-- `NewHandler`: allocates a handler with an empty map and zero cycle
counters, then, when a persistence path is configured, calls `Load`; a
`Load` error is only logged as a warning, so construction always yields
a handler. -/
def newHandler (persistPath : String) (d : Disk) : LedgerState :=
  if persistPath = "" then freshLedger
  else { freshLedger with strikes := loadInto d }

/-! ## Reachable ledger states

A world is the in-memory handler state together with the persistence
target it owns. The reachable worlds are those produced by construction
over a missing or unparseable target, followed by any sequence of the
handler operations, `Save`, and re-construction over the current target
(which is how persisted state written by `Save` flows back in through
`Load`). -/

/-- A handler state paired with its persistence target. -/
structure World where
  path : String
  st : LedgerState
  disk : Disk

/-- The worlds reachable by ledger operations. -/
inductive Reachable : World → Prop
  | boot (path : String) (d : Disk)
      (h : d = Disk.absent ∨ d = Disk.corrupt) :
      Reachable ⟨path, newHandler path d, d⟩
  | add (w : World) (hw : Reachable w) (id job name : String) (now : Int) :
      Reachable ⟨w.path, w.st.add id job name now, w.disk⟩
  | reset (w : World) (hw : Reachable w) (id : String) :
      Reachable ⟨w.path, w.st.reset id, w.disk⟩
  | clear (w : World) (hw : Reachable w) :
      Reachable ⟨w.path, w.st.clear, w.disk⟩
  | cleanup (w : World) (hw : Reachable w) (now maxAge : Int) :
      Reachable ⟨w.path, w.st.cleanup now maxAge, w.disk⟩
  | cycle (w : World) (hw : Reachable w) :
      Reachable ⟨w.path, w.st.resetCycleCounters, w.disk⟩
  | save (w : World) (hw : Reachable w) :
      Reachable ⟨w.path, w.st, saveDisk w.path w.st w.disk⟩
  | reload (w : World) (hw : Reachable w) :
      Reachable ⟨w.path, newHandler w.path w.disk, w.disk⟩

/-- Every in-memory record has a positive count. -/
def RecInv (m : Smap) : Prop :=
  ∀ id r, m id = some r → 0 < r.count

/-- Every record on the persistence target has a positive count. -/
def DiskInv (d : Disk) : Prop :=
  ∀ m, d = Disk.good m → ∀ id p, m id = some p → 0 < p.count

/-! ## Removal policy resolver

`Manager.GetRemovalAction` consults the registered download clients
(`findTorrentByHash`), the located torrent's tag list, the client's
private-tracker classification, and the two configured handling modes.
A client is modelled by its two capabilities as the resolver observes
them: `GetTorrent` returning a torrent or failing (error or nil result),
and `IsPrivateTracker` returning a classification or failing. -/

/-- The fields of `downloadclient.Torrent` the resolver inspects. -/
structure Torrent where
  hash : String
  name : String
  tags : List String

/-- A registered download client, seen through the two calls
`GetRemovalAction` makes on it. -/
structure DClient where
  getTorrent : String → Option Torrent
  isPrivateTracker : String → Option Bool

/-- The `general` configuration fields the resolver reads. -/
structure GeneralConfig where
  protectedTag : String
  privateTrackerHandling : String
  publicTrackerHandling : String

/-- `Manager.findTorrentByHash`: the first registered client whose
`GetTorrent` succeeds with a non-nil torrent wins; with none, the pair
`(nil, nil)` is returned. -/
def findTorrentByHash (clients : List DClient) (hash : String) :
    Option (Torrent × DClient) :=
  match clients with
  | [] => none
  | c :: rest =>
    match c.getTorrent hash with
    | some t => some (t, c)
    | none => findTorrentByHash rest hash

/-- The tag scan of `GetRemovalAction`: Go loops over `torrent.Tags`
comparing each against the configured protected tag. -/
def tagsContain (tags : List String) (tag : String) : Bool :=
  match tags with
  | [] => false
  | t :: rest => if t = tag then true else tagsContain rest tag

/-- `Manager.GetRemovalAction`: not found anywhere defaults to
`"remove"`; a configured protected tag present on the torrent returns
`"skip"`; otherwise the handling mode selected by the tracker
classification (defaulting to public when classification fails) is
mapped through the `switch`, with unknown modes defaulting to
`"remove"`. -/
def getRemovalAction (cfg : GeneralConfig) (clients : List DClient)
    (downloadHash : String) : String :=
  match findTorrentByHash clients downloadHash with
  | none => "remove"
  | some (torrent, client) =>
    if cfg.protectedTag ≠ "" ∧ tagsContain torrent.tags cfg.protectedTag = true
    then "skip"
    else
      let isPrivate :=
        match client.isPrivateTracker downloadHash with
        | some b => b
        | none => false
      let handling :=
        if isPrivate then cfg.privateTrackerHandling
        else cfg.publicTrackerHandling
      if handling = "remove" then "remove"
      else if handling = "skip" then "skip"
      else if handling = "obsolete_tag" then "tag"
      else "remove"

/-! ## Detection job per-item steps

The jobs share one template: strike the matched item, and once
`HasExceeded` trips, resolve and perform the removal action. The
per-item loop bodies of the slow-download, failed-imports and orphans
jobs are embedded as explicit state transformers. Collaborator calls
are recorded in an effect list; the success of a delete or tag call is
an input (the network outcome). -/

/-- A collaborator side effect performed while handling one item. -/
inductive Effect where
  | deleteQueueItem : String → Int → Bool → Bool → Bool → Effect
  | deleteTorrent : String → Bool → Effect
  | applyObsoleteTag : String → Effect
deriving DecidableEq

/-- The fields of `arrapi.QueueItem` the embedded jobs inspect
(`Added` as nanoseconds). -/
structure QueueItem where
  id : Int
  title : String
  status : String
  downloadID : String
  size : Int
  sizeleft : Int
  added : Int

/-- Outcome of processing one item: the ledger afterwards, the job's
removed counter afterwards, and the collaborator calls made. -/
structure StepResult where
  ledger : LedgerState
  removed : Nat
  effects : List Effect

/-- The per-item body of `FailedImportsJob.Run` for an item its
predicate already matched: strike it, and at threshold dispatch on the
resolved `action`; `"skip"` leaves everything; `"tag"` in test mode
logs, otherwise calls `ApplyObsoleteTag` (failure skips the item), and
on the non-failing paths resets strikes and counts the item as handled;
any other action takes the removal path, which in test mode only logs,
and otherwise deletes through the owning instance (client lookup or
delete failure skips the item) before resetting strikes and counting.
`tagOk` and `removeOk` are the collaborator call outcomes;
`clientFound` is whether `GetArrClient` finds the owning instance. -/
def failedImportsStep (testRun : Bool) (jobName instanceName : String)
    (maxStrikes : Int) (action : String) (tagOk clientFound removeOk : Bool)
    (item : QueueItem) (now : Int) (ledger : LedgerState) (removed : Nat) :
    StepResult :=
  let ledger1 := ledger.add item.downloadID jobName item.title now
  if ledger1.hasExceeded item.downloadID maxStrikes then
    if action = "skip" then ⟨ledger1, removed, []⟩
    else if action = "tag" then
      if testRun then
        ⟨ledger1.reset item.downloadID, removed + 1, []⟩
      else if tagOk then
        ⟨ledger1.reset item.downloadID, removed + 1,
         [Effect.applyObsoleteTag item.downloadID]⟩
      else
        ⟨ledger1, removed, [Effect.applyObsoleteTag item.downloadID]⟩
    else
      if testRun then ⟨ledger1, removed, []⟩
      else if clientFound then
        if removeOk then
          ⟨ledger1.reset item.downloadID, removed + 1,
           [Effect.deleteQueueItem instanceName item.id true false true]⟩
        else
          ⟨ledger1, removed,
           [Effect.deleteQueueItem instanceName item.id true false true]⟩
      else ⟨ledger1, removed, []⟩
  else ⟨ledger1, removed, []⟩

/-- The per-item body of `SlowDownloadJob.Run`: only items in status
`"downloading"` and at least 60 elapsed seconds are evaluated; the
throughput `(Size - Sizeleft) / elapsed` in bytes per second is compared
against `minDownloadSpeed` as configured (no unit conversion); a slow
item is struck and, at threshold, removed unless in test mode (the slow
job resolves no action and its test branch only logs); a non-slow item
with existing strikes is reset. Delete options are
`{RemoveFromClient true, Blocklist false, SkipRedownload false}`. -/
def slowStep (testRun : Bool) (jobName instanceName : String)
    (maxStrikes : Int) (minDownloadSpeed : ℚ) (clientFound removeOk : Bool)
    (item : QueueItem) (now : Int) (ledger : LedgerState) (removed : Nat) :
    StepResult :=
  if item.status ≠ "downloading" then ⟨ledger, removed, []⟩
  else
    let elapsed : ℚ := ((now - item.added : Int) : ℚ) / 1000000000
    if elapsed < 60 then ⟨ledger, removed, []⟩
    else
      let downloaded : ℚ := ((item.size - item.sizeleft : Int) : ℚ)
      let speed := downloaded / elapsed
      if speed < minDownloadSpeed then
        let ledger1 := ledger.add item.downloadID jobName item.title now
        if ledger1.hasExceeded item.downloadID maxStrikes then
          if testRun then ⟨ledger1, removed, []⟩
          else if clientFound then
            if removeOk then
              ⟨ledger1.reset item.downloadID, removed + 1,
               [Effect.deleteQueueItem instanceName item.id true false false]⟩
            else
              ⟨ledger1, removed,
               [Effect.deleteQueueItem instanceName item.id true false false]⟩
          else ⟨ledger1, removed, []⟩
        else ⟨ledger1, removed, []⟩
      else
        if 0 < ledger.get item.downloadID then
          ⟨ledger.reset item.downloadID, removed, []⟩
        else ⟨ledger, removed, []⟩

/-- The per-item body of `OrphansJob.Run` for one torrent from a
download client: torrents tracked by any instance are skipped; an
orphan is struck and, at threshold, dispatched on the resolved action
exactly as in the failed-imports job except that the removal path calls
`client.DeleteTorrent(hash, false)` and that the test-mode removal
branch does count the item as removed. -/
def orphansStep (testRun : Bool) (jobName : String) (maxStrikes : Int)
    (action : String) (tracked tagOk removeOk : Bool)
    (torrentHash torrentName : String) (now : Int)
    (ledger : LedgerState) (removed : Nat) : StepResult :=
  if tracked then ⟨ledger, removed, []⟩
  else
    let ledger1 := ledger.add torrentHash jobName torrentName now
    if ledger1.hasExceeded torrentHash maxStrikes then
      if action = "skip" then ⟨ledger1, removed, []⟩
      else if action = "tag" then
        if testRun then
          ⟨ledger1.reset torrentHash, removed + 1, []⟩
        else if tagOk then
          ⟨ledger1.reset torrentHash, removed + 1,
           [Effect.applyObsoleteTag torrentHash]⟩
        else
          ⟨ledger1, removed, [Effect.applyObsoleteTag torrentHash]⟩
      else
        if testRun then ⟨ledger1, removed + 1, []⟩
        else if removeOk then
          ⟨ledger1.reset torrentHash, removed + 1,
           [Effect.deleteTorrent torrentHash false]⟩
        else
          ⟨ledger1, removed, [Effect.deleteTorrent torrentHash false]⟩
    else ⟨ledger1, removed, []⟩

/-! ## Cycle orchestration

`Manager.RunAll` walks the registered job list in order, skips disabled
jobs, runs the rest while collecting errors and failed-job names without
stopping, and returns `fmt.Errorf("%d jobs failed: %v", len(errs),
failedJobs)` when anything failed, `nil` otherwise. A job is modelled by
its name, enabled flag, and the error its `Run` returns this cycle. -/

/-- One registered job as `RunAll` observes it. -/
structure Job where
  name : String
  enabled : Bool
  runError : Option String
deriving DecidableEq

/-- The loop of `RunAll`, threading the list of jobs actually run and
the accumulated failed-job names (always equal in length to the
accumulated error list). -/
def runAllLoop (js : List Job) (ran failed : List String) :
    List String × List String :=
  match js with
  | [] => (ran, failed)
  | j :: rest =>
    if j.enabled then
      match j.runError with
      | some _ => runAllLoop rest (ran ++ [j.name]) (failed ++ [j.name])
      | none => runAllLoop rest (ran ++ [j.name]) failed
    else runAllLoop rest ran failed

/-- `Manager.RunAll`: the jobs run, and the aggregate error — `none`
(`nil`) when no enabled job failed, otherwise the failure count together
with the failed-job names the error message carries. -/
def runAll (js : List Job) : List String × Option (Nat × List String) :=
  let p := runAllLoop js [] []
  (p.1, if p.2 = [] then none else some (p.2.length, p.2))

/-- The names of the enabled jobs, in registration order. -/
def enabledNames (js : List Job) : List String :=
  (js.filter (fun j => j.enabled)).map (fun j => j.name)

/-- The names of the enabled jobs whose run failed, in registration
order. -/
def failedNames (js : List Job) : List String :=
  (js.filter (fun j => j.enabled && j.runError.isSome)).map (fun j => j.name)

/-! ## Shared lemmas -/

/-- Resetting an id always leaves it with count zero. -/
theorem get_reset_self (st : LedgerState) (id : String) :
    (st.reset id).get id = 0 := by
  unfold LedgerState.reset LedgerState.get
  cases h : st.strikes id with
  | some r => simp [h]
  | none => simp [h]

/-- Adding to an id bumps its count by exactly one. -/
theorem get_add_self (st : LedgerState) (id job name : String) (now : Int) :
    (st.add id job name now).get id = st.get id + 1 := by
  unfold LedgerState.add LedgerState.get
  cases h : st.strikes id with
  | some r => simp [h]
  | none => simp [h]

/-- A handler state with one existing record, used to instantiate
theorems about operations on pre-populated ledgers. -/
def sampleLedger : LedgerState :=
  ⟨fun k => if k = ("x") then some ⟨2, 5, 6, ("j0"), ("old")⟩ else none, 0, 0⟩

/-! ## Claims -/

/-- Claim C5, counterexample: in a fresh ledger the id has never been
Added and `Get` returns 0, yet `HasExceeded` with `maxStrikes = 0` (a
legal Go `int` argument) returns `true` because the comparison is
`Get(id) >= maxStrikes` — so "HasExceeded returns false for every k" is
false at `k = 0`. -/
theorem claim_C5_counterexample :
    freshLedger.get ("x") = 0 ∧ freshLedger.hasExceeded ("x") 0 = true := by
  constructor
  · rfl
  · rfl

/-- Claim C5 (amended): `HasExceeded(id, k)` is true iff
`Get(id) >= k`; and for an id with no record — in particular one on
which `Add` has never been called — `HasExceeded(id, k)` is false for
every `k >= 1` (for `k <= 0` it is vacuously true, since `Get` returns
0). -/
theorem claim_C5_hasExceeded_spec (st : LedgerState) (id : String) (k : Int) :
    (st.hasExceeded id k = true ↔ k ≤ st.get id) ∧
    (st.strikes id = none → 1 ≤ k → st.hasExceeded id k = false) := by
  constructor
  · simp [LedgerState.hasExceeded]
  · intro hnone hk
    simp only [LedgerState.hasExceeded, LedgerState.get, hnone]
    simp
    omega

/-- Claim C5 witness: the two parts at a concrete fresh ledger. -/
theorem claim_C5_hasExceeded_spec_witness :
    (freshLedger.hasExceeded ("x") 3 = true ↔ (3 : Int) ≤ freshLedger.get ("x")) ∧
    freshLedger.hasExceeded ("x") 3 = false :=
  ⟨(claim_C5_hasExceeded_spec freshLedger ("x") 3).1,
   (claim_C5_hasExceeded_spec freshLedger ("x") 3).2 rfl (by decide)⟩

/-- Claim C10: `Add` with an empty name on an existing record keeps the
previous name while incrementing the count, setting `lastSeen` to now
and overwriting the job; a non-empty name overwrites the stored name. -/
theorem claim_C10_add_name (st : LedgerState) (id job : String) (now : Int)
    (r : StrikeRecord) (h : st.strikes id = some r) :
    (st.add id job ("") now).strikes id =
      some ⟨r.count + 1, r.firstSeen, now, job, r.name⟩ ∧
    ∀ n : String, n ≠ "" →
      (st.add id job n now).strikes id =
        some ⟨r.count + 1, r.firstSeen, now, job, n⟩ := by
  constructor
  · simp [LedgerState.add, h]
  · intro n hn
    simp [LedgerState.add, h, hn]

/-- Claim C10 witness: both parts on a ledger holding the record
`⟨2, 5, 6, j0, old⟩` at id `x`. -/
theorem claim_C10_add_name_witness :
    (sampleLedger.add ("x") ("j1") ("") 9).strikes ("x") =
      some ⟨3, 5, 9, ("j1"), ("old")⟩ ∧
    (sampleLedger.add ("x") ("j1") ("new") 9).strikes ("x") =
      some ⟨3, 5, 9, ("j1"), ("new")⟩ :=
  ⟨(claim_C10_add_name sampleLedger ("x") ("j1") 9 ⟨2, 5, 6, ("j0"), ("old")⟩ rfl).1,
   (claim_C10_add_name sampleLedger ("x") ("j1") 9 ⟨2, 5, 6, ("j0"), ("old")⟩ rfl).2
     ("new") (by decide)⟩

/-- Claim C8: with a configured persistence target, `Save` followed by
constructing a fresh handler over the same target (which runs `Load`)
reproduces every record exactly — same count, job and name, and
timestamps preserved at full nanosecond precision, hence in particular
to second-level precision. -/
theorem claim_C8_roundTrip (path : String) (hpath : path ≠ "")
    (st : LedgerState) (d : Disk) (id : String) (r : StrikeRecord)
    (h : st.strikes id = some r) :
    (newHandler path (saveDisk path st d)).strikes id = some r := by
  simp [saveDisk, hpath, newHandler, loadInto, h, marshalRecord, unmarshalRecord]

/-- Claim C8 witness: the record at id `x` survives a save/reload
round trip over path `p`. -/
theorem claim_C8_roundTrip_witness :
    (newHandler ("p") (saveDisk ("p") sampleLedger Disk.absent)).strikes ("x") =
      some ⟨2, 5, 6, ("j0"), ("old")⟩ :=
  claim_C8_roundTrip ("p") (by decide) sampleLedger Disk.absent ("x")
    ⟨2, 5, 6, ("j0"), ("old")⟩ rfl

/-- Claim C7: construction never fails because of persisted state. Over
a missing target the handler starts empty and `Load` reports no error;
over an unparseable target the handler still starts empty (`Load`
returns an error that `NewHandler` only logs as a warning) and the
handler remains usable: a subsequent `Add` takes effect and a subsequent
`Save` writes the new record to the target. -/
theorem claim_C7_construction (path : String) (hpath : path ≠ "")
    (id job name : String) (now : Int) :
    (newHandler path Disk.absent).strikes id = none ∧
    loadErr Disk.absent = none ∧
    (newHandler path Disk.corrupt).strikes id = none ∧
    (loadErr Disk.corrupt).isSome = true ∧
    ((newHandler path Disk.corrupt).add id job name now).get id = 1 ∧
    ∃ m, saveDisk path ((newHandler path Disk.corrupt).add id job name now)
           Disk.corrupt = Disk.good m ∧
         m id = some ⟨1, now, now, job, name⟩ := by
  refine ⟨?_, rfl, ?_, rfl, ?_, ?_⟩
  · simp [newHandler, hpath, loadInto, freshLedger, emptySmap]
  · simp [newHandler, hpath, loadInto, freshLedger, emptySmap]
  · simp [newHandler, hpath, loadInto, freshLedger, emptySmap,
      LedgerState.add, LedgerState.get]
  · refine ⟨fun k =>
        ((((newHandler path Disk.corrupt).add id job name now).strikes k).map
          marshalRecord), ?_, ?_⟩
    · simp [saveDisk, hpath]
    · simp [newHandler, hpath, loadInto, freshLedger, emptySmap,
        LedgerState.add, marshalRecord]

/-- Claim C7 witness: construction over missing and corrupt targets at
a concrete path, with a concrete follow-up `Add`. -/
theorem claim_C7_construction_witness :
    (newHandler ("p") Disk.absent).strikes ("x") = none ∧
    (newHandler ("p") Disk.corrupt).strikes ("x") = none ∧
    ((newHandler ("p") Disk.corrupt).add ("x") ("j") ("n") 5).get ("x") = 1 :=
  ⟨(claim_C7_construction ("p") (by decide) ("x") ("j") ("n") 5).1,
   (claim_C7_construction ("p") (by decide) ("x") ("j") ("n") 5).2.2.1,
   (claim_C7_construction ("p") (by decide) ("x") ("j") ("n") 5).2.2.2.2.1⟩

/-- Every reachable world keeps positive counts both in memory and on
the persistence target. -/
theorem reachable_inv (w : World) (hw : Reachable w) :
    RecInv w.st.strikes ∧ DiskInv w.disk := by
  induction hw with
  | boot path d h =>
    constructor
    · intro id r hr
      by_cases hp : path = ""
      · simp [newHandler, hp, freshLedger, emptySmap] at hr
      · rcases h with h | h <;> subst h <;>
          simp [newHandler, hp, loadInto, freshLedger, emptySmap] at hr
    · intro m hm id p hp
      rcases h with h | h <;> subst h <;> cases hm
  | add w hw id job name now ih =>
    refine ⟨?_, ih.2⟩
    intro id2 r2 h2
    cases hcase : w.st.strikes id with
    | some record =>
      simp only [LedgerState.add, hcase] at h2
      by_cases hid : id2 = id
      · rw [if_pos hid] at h2
        injection h2 with h3
        have := ih.1 id record hcase
        rw [← h3]
        show 0 < record.count + 1
        omega
      · rw [if_neg hid] at h2
        exact ih.1 id2 r2 h2
    | none =>
      simp only [LedgerState.add, hcase] at h2
      by_cases hid : id2 = id
      · rw [if_pos hid] at h2
        injection h2 with h3
        rw [← h3]
        simp
      · rw [if_neg hid] at h2
        exact ih.1 id2 r2 h2
  | reset w hw id ih =>
    refine ⟨?_, ih.2⟩
    intro id2 r2 h2
    cases hcase : w.st.strikes id with
    | some record =>
      simp only [LedgerState.reset, hcase] at h2
      by_cases hid : id2 = id
      · subst hid; simp at h2
      · simp [hid] at h2
        exact ih.1 id2 r2 h2
    | none =>
      simp only [LedgerState.reset, hcase] at h2
      exact ih.1 id2 r2 h2
  | clear w hw ih =>
    refine ⟨?_, ih.2⟩
    intro id2 r2 h2
    simp [LedgerState.clear, emptySmap] at h2
  | cleanup w hw now maxAge ih =>
    refine ⟨?_, ih.2⟩
    intro id2 r2 h2
    simp only [LedgerState.cleanup] at h2
    cases hcase : w.st.strikes id2 with
    | some record =>
      rw [hcase] at h2
      by_cases hage : record.lastSeen < now - maxAge
      · simp [hage] at h2
      · simp [hage] at h2
        subst h2
        exact ih.1 id2 record hcase
    | none =>
      rw [hcase] at h2
      cases h2
  | cycle w hw ih =>
    exact ih
  | save w hw ih =>
    refine ⟨ih.1, ?_⟩
    intro m hm id p hp
    by_cases hpth : w.path = ""
    · rw [saveDisk, if_pos hpth] at hm
      exact ih.2 m hm id p hp
    · rw [saveDisk, if_neg hpth, Disk.good.injEq] at hm
      subst hm
      simp only [Option.map_eq_some'] at hp
      obtain ⟨r, hr, hpr⟩ := hp
      have := ih.1 id r hr
      rw [← hpr]
      simpa [marshalRecord] using this
  | reload w hw ih =>
    refine ⟨?_, ih.2⟩
    intro id r hr
    by_cases hpth : w.path = ""
    · simp [newHandler, hpth, freshLedger, emptySmap] at hr
    · cases hdisk : w.disk with
      | absent =>
        rw [hdisk] at hr
        simp [newHandler, hpth, loadInto, freshLedger, emptySmap] at hr
      | corrupt =>
        rw [hdisk] at hr
        simp [newHandler, hpth, loadInto, freshLedger, emptySmap] at hr
      | good m =>
        rw [hdisk] at hr
        simp only [newHandler, hpth, ite_false, loadInto, freshLedger,
          Option.map_eq_some'] at hr
        obtain ⟨p, hp, hpr⟩ := hr
        have := ih.2 m hdisk id p hp
        rw [← hpr]
        simpa [unmarshalRecord] using this

/-- Claim C4: in every world reachable by any sequence of ledger
operations (construction with `Load`, `Add`, `Get`, `Reset`, `Clear`,
`Cleanup`, `Save`, re-construction), every stored record has a strictly
positive count, and a record for an id exists if and only if its count
(`Get`) is greater than zero. -/
theorem claim_C4_invariant (w : World) (hw : Reachable w) :
    (∀ id r, w.st.strikes id = some r → 0 < r.count) ∧
    (∀ id, 0 < w.st.get id ↔ (w.st.strikes id).isSome = true) := by
  have hinv := reachable_inv w hw
  refine ⟨hinv.1, ?_⟩
  intro id
  cases hcase : w.st.strikes id with
  | some r =>
    simp only [LedgerState.get, hcase, Option.isSome_some, iff_true]
    exact hinv.1 id r hcase
  | none =>
    simp [LedgerState.get, hcase]

/-- Claim C4 witness: the equivalence at the world reached by
constructing over a missing target and adding one strike. -/
theorem claim_C4_invariant_witness :
    0 < ((newHandler ("p") Disk.absent).add ("x") ("j") ("n") 5).get ("x") ↔
    (((newHandler ("p") Disk.absent).add ("x") ("j") ("n") 5).strikes
      ("x")).isSome = true :=
  (claim_C4_invariant _
    (Reachable.add _ (Reachable.boot ("p") Disk.absent (Or.inl rfl))
      ("x") ("j") ("n") 5)).2 ("x")

/-- The loop of `RunAll` appends the enabled-job names and the
failed-job names, in registration order, to its accumulators. -/
theorem runAllLoop_spec (js : List Job) : ∀ ran failed : List String,
    runAllLoop js ran failed =
      (ran ++ enabledNames js, failed ++ failedNames js) := by
  induction js with
  | nil =>
    intro ran failed
    simp [runAllLoop, enabledNames, failedNames]
  | cons j rest ih =>
    intro ran failed
    cases he : j.enabled with
    | true =>
      cases hre : j.runError with
      | some e =>
        simp [runAllLoop, he, hre, ih, enabledNames, failedNames,
          List.filter_cons]
      | none =>
        simp [runAllLoop, he, hre, ih, enabledNames, failedNames,
          List.filter_cons]
    | false =>
      simp [runAllLoop, he, ih, enabledNames, failedNames, List.filter_cons]

/-- Claim C6: `RunAll` runs exactly the enabled jobs, in registration
order, never letting one job's error stop later jobs (every enabled
job's name is in the run list no matter which jobs failed); it returns
a nil aggregate error iff no enabled job failed, and otherwise the
error carries the failure count and the name of every failed job. -/
theorem claim_C6_runAll (js : List Job) :
    (runAll js).1 = enabledNames js ∧
    ((runAll js).2 = none ↔ failedNames js = []) ∧
    (failedNames js = [] ↔
      ∀ j, j ∈ js → j.enabled = true → j.runError = none) ∧
    (failedNames js ≠ [] →
      (runAll js).2 = some ((failedNames js).length, failedNames js)) ∧
    (∀ j, j ∈ js → j.enabled = true → j.runError.isSome = true →
      j.name ∈ failedNames js) := by
  have hspec := runAllLoop_spec js [] []
  refine ⟨?_, ?_, ?_, ?_, ?_⟩
  · simp [runAll, hspec]
  · simp only [runAll, hspec, List.nil_append]
    by_cases hf : failedNames js = [] <;> simp [hf]
  · simp only [failedNames, List.map_eq_nil_iff, List.filter_eq_nil_iff]
    constructor
    · intro h j hj he
      have := h j hj
      cases hre : j.runError with
      | some e => simp [he, hre] at this
      | none => rfl
    · intro h j hj
      cases he : j.enabled with
      | true =>
        have := h j hj he
        simp [he, this]
      | false => simp [he]
  · intro hf
    simp [runAll, hspec, hf]
  · intro j hj he hre
    simp only [failedNames, List.mem_map, List.mem_filter]
    exact ⟨j, ⟨hj, by simp [he, hre]⟩, rfl⟩

/-- Three registered jobs: an enabled one that fails, a disabled one,
and an enabled one that succeeds. -/
def jsSample : List Job :=
  [⟨("a"), true, some ("boom")⟩, ⟨("b"), false, none⟩, ⟨("c"), true, none⟩]

/-- Claim C6 witness: on `jsSample`, both enabled jobs run in order and
the aggregate error carries the single failed name. -/
theorem claim_C6_runAll_witness :
    (runAll jsSample).1 = enabledNames jsSample ∧
    (runAll jsSample).2 = some (1, [("a")]) ∧
    ("a") ∈ failedNames jsSample :=
  ⟨(claim_C6_runAll jsSample).1,
   ((claim_C6_runAll jsSample).2.2.2.1 (by decide)).trans (by decide),
   (claim_C6_runAll jsSample).2.2.2.2 ⟨("a"), true, some ("boom")⟩
     (by decide) rfl rfl⟩

/-- Claim C2: the removal-action resolver. An id not found in any
registered download client resolves to remove; a configured protected
tag present on the located torrent's tag set resolves to skip, before
and regardless of tracker classification and of both handling modes;
otherwise the applicable handling mode — the private one when the
client classifies the tracker private, the public one when it
classifies it public or the classification fails — maps remove to
remove, skip to skip, obsolete_tag to tag, and anything unrecognized
to remove. -/
theorem claim_C2_removalAction (cfg : GeneralConfig) (clients : List DClient)
    (hash : String) :
    (findTorrentByHash clients hash = none →
      getRemovalAction cfg clients hash = "remove") ∧
    (∀ t c, findTorrentByHash clients hash = some (t, c) →
      cfg.protectedTag ≠ "" → tagsContain t.tags cfg.protectedTag = true →
      getRemovalAction cfg clients hash = "skip") ∧
    (∀ t c, findTorrentByHash clients hash = some (t, c) →
      ¬(cfg.protectedTag ≠ "" ∧ tagsContain t.tags cfg.protectedTag = true) →
      ∀ handling,
        handling = (if (c.isPrivateTracker hash).getD false
                    then cfg.privateTrackerHandling
                    else cfg.publicTrackerHandling) →
        (handling = "remove" → getRemovalAction cfg clients hash = "remove") ∧
        (handling = "skip" → getRemovalAction cfg clients hash = "skip") ∧
        (handling = "obsolete_tag" → getRemovalAction cfg clients hash = "tag") ∧
        (handling ≠ "remove" → handling ≠ "skip" → handling ≠ "obsolete_tag" →
          getRemovalAction cfg clients hash = "remove")) := by
  refine ⟨?_, ?_, ?_⟩
  · intro hnone
    simp [getRemovalAction, hnone]
  · intro t c hfind hcfg htag
    simp [getRemovalAction, hfind, hcfg, htag]
  · intro t c hfind hprot handling hh
    have hiso : (match c.isPrivateTracker hash with
                 | some b => b
                 | none => false) = (c.isPrivateTracker hash).getD false := by
      cases c.isPrivateTracker hash <;> rfl
    refine ⟨?_, ?_, ?_, ?_⟩
    · intro h1
      simp only [getRemovalAction, hfind]
      rw [if_neg hprot]
      simp only [hiso, ← hh, h1]
      decide
    · intro h1
      simp only [getRemovalAction, hfind]
      rw [if_neg hprot]
      simp only [hiso, ← hh, h1]
      decide
    · intro h1
      simp only [getRemovalAction, hfind]
      rw [if_neg hprot]
      simp only [hiso, ← hh, h1]
      decide
    · intro h1 h2 h3
      simp only [getRemovalAction, hfind]
      rw [if_neg hprot]
      simp only [hiso, ← hh]
      simp [h1, h2, h3]

/-- A client that knows the torrent `h1`, which carries the protected
tag, on a private tracker. -/
def clientProt : DClient :=
  ⟨fun h => if h = ("h1") then some ⟨("h1"), ("t1"), [("keep-me")]⟩ else none,
   fun _ => some true⟩

/-- A client that knows the untagged torrent `h2` and classifies it as
a private tracker. -/
def clientPriv : DClient :=
  ⟨fun h => if h = ("h2") then some ⟨("h2"), ("t2"), []⟩ else none,
   fun _ => some true⟩

/-- A resolver configuration with a protected tag and distinct handling
modes for the two tracker classes. -/
def cfgSample : GeneralConfig := ⟨("keep-me"), ("obsolete_tag"), ("remove")⟩

/-- Claim C2 witness: not-found resolves to remove, a protected torrent
to skip, and an unprotected private-tracker torrent through the private
handling mode (here obsolete_tag, hence tag). -/
theorem claim_C2_removalAction_witness :
    getRemovalAction cfgSample [] ("h0") = "remove" ∧
    getRemovalAction cfgSample [clientProt] ("h1") = "skip" ∧
    getRemovalAction cfgSample [clientPriv] ("h2") = "tag" :=
  ⟨(claim_C2_removalAction cfgSample [] ("h0")).1 rfl,
   (claim_C2_removalAction cfgSample [clientProt] ("h1")).2.1
     ⟨("h1"), ("t1"), [("keep-me")]⟩ clientProt rfl (by decide) (by decide),
   ((claim_C2_removalAction cfgSample [clientPriv] ("h2")).2.2
     ⟨("h2"), ("t2"), []⟩ clientPriv rfl (by decide)
     cfgSample.privateTrackerHandling (by rfl)).2.2.1 rfl⟩

/-- A queue item in status downloading with half its bytes left, used
to instantiate the job-step theorems. -/
def itemSample : QueueItem :=
  ⟨7, ("t"), ("downloading"), ("x"), 100, 50, 0⟩

/-- Claim C9: in test mode, an at-threshold item whose resolved action
is tag is handled without any collaborator call — the tag is not
applied — yet its strikes are reset and the removed (handled) counter
is incremented, in both the failed-imports job and the orphans job. -/
theorem claim_C9_testRun_tag (jobName instanceName : String) (maxStrikes : Int)
    (tagOk clientFound removeOk tagOk2 removeOk2 : Bool)
    (item : QueueItem) (torrentHash torrentName : String) (now : Int)
    (ledger ledger2 : LedgerState) (removed removed2 : Nat)
    (hthr : (ledger.add item.downloadID jobName item.title now).hasExceeded
      item.downloadID maxStrikes = true)
    (hthr2 : (ledger2.add torrentHash jobName torrentName now).hasExceeded
      torrentHash maxStrikes = true) :
    (failedImportsStep true jobName instanceName maxStrikes ("tag") tagOk
      clientFound removeOk item now ledger removed).effects = [] ∧
    (failedImportsStep true jobName instanceName maxStrikes ("tag") tagOk
      clientFound removeOk item now ledger removed).removed = removed + 1 ∧
    (failedImportsStep true jobName instanceName maxStrikes ("tag") tagOk
      clientFound removeOk item now ledger removed).ledger.get
        item.downloadID = 0 ∧
    (orphansStep true jobName maxStrikes ("tag") false tagOk2 removeOk2
      torrentHash torrentName now ledger2 removed2).effects = [] ∧
    (orphansStep true jobName maxStrikes ("tag") false tagOk2 removeOk2
      torrentHash torrentName now ledger2 removed2).removed = removed2 + 1 ∧
    (orphansStep true jobName maxStrikes ("tag") false tagOk2 removeOk2
      torrentHash torrentName now ledger2 removed2).ledger.get
        torrentHash = 0 := by
  refine ⟨?_, ?_, ?_, ?_, ?_, ?_⟩ <;>
    simp [failedImportsStep, orphansStep, hthr, hthr2, get_reset_self]

/-- Claim C9 witness: both jobs at threshold 1 over a fresh ledger. -/
theorem claim_C9_testRun_tag_witness :
    (failedImportsStep true ("j") ("i") 1 ("tag") true true true itemSample 5
      freshLedger 0).effects = [] ∧
    (failedImportsStep true ("j") ("i") 1 ("tag") true true true itemSample 5
      freshLedger 0).removed = 0 + 1 ∧
    (failedImportsStep true ("j") ("i") 1 ("tag") true true true itemSample 5
      freshLedger 0).ledger.get ("x") = 0 ∧
    (orphansStep true ("j") 1 ("tag") false true true ("h") ("n") 5
      freshLedger 0).effects = [] ∧
    (orphansStep true ("j") 1 ("tag") false true true ("h") ("n") 5
      freshLedger 0).removed = 0 + 1 ∧
    (orphansStep true ("j") 1 ("tag") false true true ("h") ("n") 5
      freshLedger 0).ledger.get ("h") = 0 :=
  claim_C9_testRun_tag ("j") ("i") 1 true true true true true itemSample
    ("h") ("n") 5 freshLedger freshLedger 0 0 (by decide) (by decide)

/-- Claim C3, counterexample to the claim as stated: in the
failed-imports job, test mode, threshold 1 (reached by the strike just
added) and resolved action remove, no collaborator call is made but the
removed counter stays 0 — it is NOT incremented as the claim asserts
(only the orphans job counts simulated removals in test mode). -/
theorem claim_C3_counterexample :
    (freshLedger.add ("x") ("j") ("t") 5).hasExceeded ("x") 1 = true ∧
    (failedImportsStep true ("j") ("i") 1 ("remove") true true true itemSample
      5 freshLedger 0).effects = [] ∧
    ¬((failedImportsStep true ("j") ("i") 1 ("remove") true true true
      itemSample 5 freshLedger 0).removed = 0 + 1) := by
  refine ⟨?_, ?_, ?_⟩ <;> decide

/-- Claim C3 (amended): for the slow-download and failed-imports jobs
in test/dry-run mode, an at-threshold item with resolved action remove
triggers no collaborator delete or tag call and no strike `Reset` — the
state after the step is exactly the post-strike ledger with an empty
effect list — and the job's reported removed count is left unchanged,
not incremented (the hypotheses put the slow item in downloading
status, past the 60-second grace period and below the speed
threshold). -/
theorem claim_C3_testRun_remove (jobName instanceName : String)
    (maxStrikes : Int) (tagOk clientFound removeOk : Bool)
    (minDownloadSpeed : ℚ) (item : QueueItem) (now : Int)
    (ledger : LedgerState) (removed : Nat)
    (hthr : (ledger.add item.downloadID jobName item.title now).hasExceeded
      item.downloadID maxStrikes = true)
    (hstatus : item.status = "downloading")
    (helapsed : ¬(((now - item.added : Int) : ℚ) / 1000000000 < 60))
    (hslow : ((item.size - item.sizeleft : Int) : ℚ) /
      (((now - item.added : Int) : ℚ) / 1000000000) < minDownloadSpeed) :
    failedImportsStep true jobName instanceName maxStrikes ("remove") tagOk
      clientFound removeOk item now ledger removed =
        ⟨ledger.add item.downloadID jobName item.title now, removed, []⟩ ∧
    slowStep true jobName instanceName maxStrikes minDownloadSpeed clientFound
      removeOk item now ledger removed =
        ⟨ledger.add item.downloadID jobName item.title now, removed, []⟩ := by
  constructor
  · simp [failedImportsStep, hthr]
  · simp only [slowStep]
    rw [if_neg (by simp [hstatus]), if_neg helapsed, if_pos hslow,
      if_pos hthr, if_pos trivial]

/-- Claim C3 witness: both jobs at threshold 1 over a fresh ledger,
61 elapsed seconds and speed below the configured 100. -/
theorem claim_C3_testRun_remove_witness :
    failedImportsStep true ("j") ("i") 1 ("remove") true true true itemSample
      61000000000 freshLedger 0 =
        ⟨freshLedger.add ("x") ("j") ("t") 61000000000, 0, []⟩ ∧
    slowStep true ("j") ("i") 1 100 true true itemSample 61000000000
      freshLedger 0 =
        ⟨freshLedger.add ("x") ("j") ("t") 61000000000, 0, []⟩ :=
  claim_C3_testRun_remove ("j") ("i") 1 true true true 100 itemSample
    61000000000 freshLedger 0 (by decide) rfl
    (by norm_num [itemSample]) (by norm_num [itemSample])

/-- The queue item of the claim C1 scenario: status downloading, size
1,000,000,000 bytes, 994,000,000 bytes left, added 61 seconds before
the check. -/
def c1Item : QueueItem :=
  ⟨1, ("t"), ("downloading"), ("x"), 1000000000, 994000000, 0⟩

/-- A ledger already holding one strike for the claim C1 item. -/
def c1Ledger : LedgerState :=
  ⟨fun k => if k = ("x") then some ⟨1, 0, 30000000000, ("remove_slow"), ("t")⟩
   else none, 0, 0⟩

/-- Claim C1, evaluated at the failing input: with `min_download_speed`
100 — the default, documented as KB/s both in the configuration
defaults and the README — the slow job computes
6,000,000 bytes / 61 s ≈ 98,360.66 bytes per second and compares it
against 100 with no unit conversion, i.e. against 100 B/s; the item is
therefore judged NOT slow: no strike is added (`strikesAdded` stays 0)
and the existing strike is reset to 0, where the claim (matching the
documented KB/s unit, ≈ 96 KB/s < 100 KB/s) expects a strike to be
added. -/
theorem claim_C1_slow_eval :
    c1Ledger.get ("x") = 1 ∧
    (slowStep false ("remove_slow") ("sonarr") 3 100 true true c1Item
      61000000000 c1Ledger 0).ledger.get ("x") = 0 ∧
    (slowStep false ("remove_slow") ("sonarr") 3 100 true true c1Item
      61000000000 c1Ledger 0).ledger.strikesAdded = 0 ∧
    (slowStep false ("remove_slow") ("sonarr") 3 100 true true c1Item
      61000000000 c1Ledger 0).effects = [] := by
  refine ⟨rfl, ?_, ?_, ?_⟩ <;>
    norm_num [slowStep, c1Item, c1Ledger, LedgerState.get, LedgerState.reset]

end Decluttarr
